import Mathlib

/-!
Verification of the `secure_vault` core against its specification.

The Python source is shallowly embedded: byte strings that flow through the
cryptographic primitives are modelled as a free term algebra `B` (the standard
symbolic / Dolev-Yao model of an ideal AEAD, KDF and hash), stateful code
(the block manager, the repository-database singleton, the transaction
context manager, the JSON config store) is modelled by explicit state passing,
and Python exceptions are modelled with `Except` / `Option`.  Fresh randomness
(`nacl.utils.random`, `uuid.uuid4`) is passed in as an explicit argument.
-/

namespace SecureVault

/-- Symbolic byte strings: the free algebra generated by the cryptographic
primitives of `src/core/crypto.py` (libsodium via PyNaCl).
`raw` embeds concrete byte strings; `cat` is `+` on `bytes`;
`kdfKey pin salt` is `argon2id.kdf(32, pin, salt)`;
`blake x` is `blake2b(x, digest_size=32)` (used for `compute_block_hash`,
`compute_key_hash` and `derive_file_key`); `sealed key nonce m` is the
detached XSalsa20-Poly1305 ciphertext `SecretBox(key).encrypt(m, nonce).ciphertext`.
In this ideal model two terms are equal exactly when their build-up is equal. -/
inductive B where
  | raw : List Nat → B
  | cat : B → B → B
  | kdfKey : String → B → B
  | blake : B → B
  | sealed : B → B → B → B
  deriving DecidableEq, Repr

/-- Symbolic `len(...)`: a blake2b digest has 32 bytes, an argon2id key 32
bytes, and a `SecretBox` ciphertext is 16 bytes (Poly1305 tag) longer than its
plaintext. -/
def B.len : B → Nat
  | .raw l => l.length
  | .cat a b => a.len + b.len
  | .kdfKey _ _ => 32
  | .blake _ => 32
  | .sealed _ _ m => m.len + 16

/-- Python `CryptoError` of `src/core/crypto.py` (all decrypt failures are opaque). -/
inductive CryptoError where
  | cryptoFailure
  deriving DecidableEq, Repr

/-- Python `derive_key_from_pin(pin, salt)` — Argon2id KDF (crypto.py:48). -/
def derive_key_from_pin (pin : String) (salt : B) : B := .kdfKey pin salt

/-- Python `compute_key_hash(key)` (crypto.py:122): `blake2b(key, 32).hex()`; the hex
encoding is injective so the digest is kept symbolic. -/
def compute_key_hash (key : B) : B := .blake key

/-- Python `verify_key_hash(key, expected_hash)` (crypto.py:135). -/
def verify_key_hash (key : B) (expected : B) : Bool := compute_key_hash key = expected

/-- Python `derive_file_key(master_key, salt)` (crypto.py:149):
`blake2b(master_key + salt, digest_size=32)`. -/
def derive_file_key (master_key : B) (salt : B) : B := .blake (.cat master_key salt)

/-- Python `compute_block_hash(data)` (hash_utils.py:16): `blake2b(data, 32).hex()`. -/
def compute_block_hash (data : B) : B := .blake data

/-- Python `encrypt_block(data, key)` (crypto.py:168) with the fresh nonce made an
explicit argument: returns `(ciphertext, nonce)`. -/
def encrypt_block (data : B) (key : B) (nonce : B) : B × B :=
  (.sealed key nonce data, nonce)

/-- Python `decrypt_block(encrypted_data, key, nonce)` (crypto.py:185): opens the
`SecretBox`; in the ideal-AEAD model authentication succeeds exactly when the
ciphertext was sealed under the same key and nonce, and any failure raises the
opaque `CryptoError`. -/
def decrypt_block (encrypted_data : B) (key : B) (nonce : B) : Except CryptoError B :=
  match encrypted_data with
  | .sealed k n m =>
      if k = key ∧ n = nonce then .ok m else .error .cryptoFailure
  | _ => .error .cryptoFailure

/-- Whether AEAD authentication of `encrypted_data` under `key`/`nonce`
succeeds (the ideal-model condition for `box.decrypt` not raising). -/
def aead_auth_ok (encrypted_data : B) (key : B) (nonce : B) : Prop :=
  ∃ m, encrypted_data = .sealed key nonce m

instance (e k n : B) : Decidable (aead_auth_ok e k n) := by
  unfold aead_auth_ok
  match e with
  | .raw l => exact .isFalse (by simp)
  | .cat a b => exact .isFalse (by simp)
  | .kdfKey p s => exact .isFalse (by simp)
  | .blake x => exact .isFalse (by simp)
  | .sealed k0 n0 m0 =>
      by_cases hk : k0 = k
      · by_cases hn : n0 = n
        · exact .isTrue ⟨m0, by simp [hk, hn]⟩
        · refine .isFalse ?_
          rintro ⟨m, hm⟩
          exact hn (by injection hm with h1 h2 h3)
      · refine .isFalse ?_
        rintro ⟨m, hm⟩
        exact hk (by injection hm with h1 h2 h3)

/-- Python `encrypt_master_key(master_key, pin)` (crypto.py:69), with the fresh salt
and nonce explicit: derives the wrapping key from the PIN and seals the master
key; returns `(ciphertext, salt, nonce)`. -/
def encrypt_master_key (master_key : B) (pin : String) (salt nonce : B) : B × B × B :=
  let derived_key := derive_key_from_pin pin salt
  (.sealed derived_key nonce master_key, salt, nonce)

/-- Python `decrypt_master_key(encrypted_key, pin, salt, nonce)` (crypto.py:93):
re-derives the wrapping key and opens the box; any failure raises
`CryptoError` ("Invalid PIN"). -/
def decrypt_master_key (encrypted_key : B) (pin : String) (salt nonce : B) :
    Except CryptoError B :=
  let derived_key := derive_key_from_pin pin salt
  decrypt_block encrypted_key derived_key nonce

/-! ## Master-key setup and PIN unlock (`main.py`) -/

/-- The four master-key fields that `SecureVaultApp._first_time_setup`
(main.py:136-143) persists into the global config after a successful setup. -/
structure MasterKeyConfig where
  encrypted_master_key : B
  master_key_salt : B
  master_key_nonce : B
  master_key_hash : B
  deriving DecidableEq, Repr

/-- The persistence step of `_first_time_setup` (main.py:136-143): wrap the
master key under the PIN with `encrypt_master_key` and store ciphertext, salt,
nonce and the `compute_key_hash` fingerprint.  The fresh salt and nonce drawn
inside `encrypt_master_key` are explicit arguments. -/
def setup_master_key (master_key : B) (pin : String) (salt nonce : B) : MasterKeyConfig :=
  let (encrypted_key, salt, nonce) := encrypt_master_key master_key pin salt nonce
  { encrypted_master_key := encrypted_key
    master_key_salt := salt
    master_key_nonce := nonce
    master_key_hash := compute_key_hash master_key }

/-- The unlock attempt of `SecureVaultApp._verify_pin` (main.py:155-177):
decrypt the stored master key with the entered PIN and check the stored
fingerprint with `verify_key_hash`; on decrypt failure or hash mismatch the
master key is not accepted. -/
def verify_pin (cfg : MasterKeyConfig) (pin : String) : Except CryptoError B := do
  let decrypted_key ← decrypt_master_key cfg.encrypted_master_key pin
      cfg.master_key_salt cfg.master_key_nonce
  if verify_key_hash decrypted_key cfg.master_key_hash then
    .ok decrypted_key
  else
    .error .cryptoFailure

/-! ## Block manager (`src/operations/block_manager.py`) -/

/-- The dictionary returned by `BlockManager.prepare_block` (block_manager.py:67-75). -/
structure PreparedBlock where
  hash : B
  relative_path : String
  size : Nat
  salt : B
  nonce : B
  encrypted_data : B
  original_size : Nat
  deriving DecidableEq, Repr

/-- Python `BlockManager._generate_block_path` (block_manager.py:195-206) applied to
the fresh `uuid.uuid4().hex`: two 2-character shard directories then the full
hex id. -/
def generate_block_path (uuidHex : String) : String :=
  String.join [(uuidHex.toList.take 2).asString, "/",
               ((uuidHex.toList.drop 2).take 2).asString, "/", uuidHex]

/-- Python `BlockManager.prepare_block(data)` (block_manager.py:41-75): hash the
plaintext, draw a fresh salt, derive the per-block key from the master key and
the salt, seal the plaintext under a fresh nonce, and allocate a fresh sharded
relative path.  A pure function of the master key, the data and the fresh
randomness `(salt, nonce, uuidHex)`; it takes no database or disk state. -/
def prepare_block (master_key : B) (data : B) (salt nonce : B) (uuidHex : String) :
    PreparedBlock :=
  let block_hash := compute_block_hash data
  let file_key := derive_file_key master_key salt
  let (encrypted_data, nonce) := encrypt_block data file_key nonce
  let relative_path := generate_block_path uuidHex
  { hash := block_hash
    relative_path := relative_path
    size := encrypted_data.len
    salt := salt
    nonce := nonce
    encrypted_data := encrypted_data
    original_size := data.len }

/-- Error taxonomy surfaced by the block manager and database layer:
`FileNotFoundError` for a missing blob (the spec's `MissingBlob`),
`CryptoError` on AEAD failure (the spec's `CryptoFailure`), a database error
from a failed insert, and a host filesystem error (the spec's `IOFailure`,
e.g. a removed drive on open). -/
inductive VaultError where
  | missingBlob
  | cryptoFailure
  | dbError
  | ioFailure
  deriving DecidableEq, Repr

/-- A row of the `blocks` table (schema in database.py:141-149):
`reference_count` has SQL default 1. -/
structure BlockRow where
  id : Nat
  hash : B
  relative_path : String
  size : Nat
  salt : B
  nonce : B
  reference_count : Nat
  deriving DecidableEq, Repr

/-- The blob tree under `<repo>/.vault/blocks/`: the set of directories that
exist and the files with their contents (a path maps to at most one file). -/
structure Disk where
  dirs : List String
  files : List (String × B)
  deriving DecidableEq, Repr

/-- Look up a file's contents on disk. -/
def Disk.lookupFile (d : Disk) (path : String) : Option B :=
  (d.files.find? (fun f => decide (f.1 = path))).map (·.2)

/-- Python `full_path.parent.mkdir(parents=True, exist_ok=True)`: every proper prefix
of the `/`-separated relative path becomes a directory. -/
def parentDirs (path : String) : List String :=
  let comps := path.splitOn "/"
  (List.range (comps.length - 1)).map (fun i => String.intercalate "/" (comps.take (i + 1)))

/-- Create the parent directories of `path` (idempotent, `exist_ok=True`). -/
def Disk.mkdirParents (d : Disk) (path : String) : Disk :=
  { d with dirs := (parentDirs path).foldl (fun acc p => if p ∈ acc then acc else p :: acc) d.dirs }

/-- Python `open(full_path, "wb"); f.write(data)`: create or truncate-and-replace. -/
def Disk.writeFile (d : Disk) (path : String) (data : B) : Disk :=
  { d with files := (path, data) :: d.files.filter (fun f => decide (f.1 ≠ path)) }

/-- Python `full_path.unlink()`. -/
def Disk.removeFile (d : Disk) (path : String) : Disk :=
  { d with files := d.files.filter (fun f => decide (f.1 ≠ path)) }

/-- The state a `BlockManager` acts on: the repository's `blocks` table and
its blob tree. -/
structure RepoState where
  blocks : List BlockRow
  disk : Disk
  deriving DecidableEq, Repr

/-- Modelled from the spec: `Block.get_by_hash` of `src/database/models.py`
(absent from the source tree) — look up the `blocks` row with the given
content hash; the `hash` column is UNIQUE (database.py:143). -/
def get_by_hash (rows : List BlockRow) (h : B) : Option BlockRow :=
  rows.find? (fun r => decide (r.hash = h))

/-- Modelled from the spec: `Block.increment_reference` of
`src/database/models.py` (absent) — "increment its `refcount` by 1". -/
def increment_reference (rows : List BlockRow) (id : Nat) : List BlockRow :=
  rows.map (fun r => if r.id = id then { r with reference_count := r.reference_count + 1 } else r)

/-- Modelled from the spec: `Block.decrement_reference` of
`src/database/models.py` (absent) — "Atomically decrement refcount"; returns
whether the refcount reached zero (the `should_delete` of
block_manager.py:171). -/
def decrement_reference (rows : List BlockRow) (id : Nat) : Bool × List BlockRow :=
  let rows' := rows.map
    (fun r => if r.id = id then { r with reference_count := r.reference_count - 1 } else r)
  match rows'.find? (fun r => decide (r.id = id)) with
  | some r => (decide (r.reference_count = 0), rows')
  | none => (false, rows')

/-- The next AUTOINCREMENT id for an insert into `blocks`. -/
def freshId (rows : List BlockRow) : Nat :=
  1 + (rows.map (·.id)).foldr max 0

/-- Modelled from the spec: `Block.create` of `src/database/models.py`
(absent) — "insert a new `blocks` row with refcount=1"; `reference_count`
defaults to 1 in the schema (database.py:148). -/
def block_create (rows : List BlockRow) (block_hash : B) (relative_path : String)
    (size : Nat) (salt nonce : B) : BlockRow × List BlockRow :=
  let row : BlockRow :=
    { id := freshId rows, hash := block_hash, relative_path := relative_path,
      size := size, salt := salt, nonce := nonce, reference_count := 1 }
  (row, rows ++ [row])

/-- Modelled from the spec: `Block.delete` of `src/database/models.py`
(absent) — delete the row. -/
def block_row_delete (rows : List BlockRow) (id : Nat) : List BlockRow :=
  rows.filter (fun r => decide (r.id ≠ id))

/-- Python `BlockManager.store_prepared_block(prepared)` (block_manager.py:77-116).
`db_insert_ok` injects the outcome of the `Block.create` database insert: the
source has no `try`/`except`, so when the insert raises, the exception
propagates after the blob was already written and nothing removes it
(`rollback_temp_blocks`, block_manager.py:223-225, is `pass`). -/
def store_prepared_block (db_insert_ok : Bool) (st : RepoState) (prepared : PreparedBlock) :
    Except VaultError (BlockRow × Bool) × RepoState :=
  match get_by_hash st.blocks prepared.hash with
  | some existing =>
      let blocks' := increment_reference st.blocks existing.id
      (.ok ({ existing with reference_count := existing.reference_count + 1 }, false),
       { st with blocks := blocks' })
  | none =>
      let disk' := (st.disk.mkdirParents prepared.relative_path).writeFile
        prepared.relative_path prepared.encrypted_data
      if db_insert_ok then
        let (block, blocks') := block_create st.blocks prepared.hash prepared.relative_path
          prepared.size prepared.salt prepared.nonce
        (.ok (block, true), { blocks := blocks', disk := disk' })
      else
        (.error .dbError, { st with disk := disk' })

/-- Python `BlockManager.rollback_temp_blocks` (block_manager.py:223-225): the body
is `pass`; it changes nothing. -/
def rollback_temp_blocks (st : RepoState) : RepoState := st

/-- Python `BlockManager.retrieve_block_data(block)` (block_manager.py:123-138):
raise `FileNotFoundError` when the blob file is absent, otherwise re-derive
the per-block key and decrypt (AEAD failure raises `CryptoError`). -/
def retrieve_block_data (disk : Disk) (master_key : B) (block : BlockRow) :
    Except VaultError B :=
  match disk.lookupFile block.relative_path with
  | none => .error .missingBlob
  | some encrypted_data =>
      let file_key := derive_file_key master_key block.salt
      match decrypt_block encrypted_data file_key block.nonce with
      | .ok m => .ok m
      | .error _ => .error .cryptoFailure

/-- Python `BlockManager.delete_block_file(block)` (block_manager.py:144-159): only
unlink the blob; returns whether a file was removed. -/
def delete_block_file (disk : Disk) (block : BlockRow) : Bool × Disk :=
  match disk.lookupFile block.relative_path with
  | some _ => (true, disk.removeFile block.relative_path)
  | none => (false, disk)

/-- Observable side-effect order of `delete_block`. -/
inductive DeleteEvent where
  | deletedBlob : String → DeleteEvent
  | deletedRow : Nat → DeleteEvent
  deriving DecidableEq, Repr

/-- Python `BlockManager.delete_block(block)` (block_manager.py:161-180): decrement
the refcount; when it reached zero, first `delete_block_file` removes the blob
(line 174), then `block.delete` removes the database row (line 177).  The
event list records the order of the two removals. -/
def delete_block (st : RepoState) (block : BlockRow) :
    Bool × RepoState × List DeleteEvent :=
  let (should_delete, blocks') := decrement_reference st.blocks block.id
  if should_delete then
    let (_, disk') := delete_block_file st.disk block
    let blocks'' := block_row_delete blocks' block.id
    (true, ⟨blocks'', disk'⟩,
     [.deletedBlob block.relative_path, .deletedRow block.id])
  else
    (false, { st with blocks := blocks' }, [])

/-! ## File chunking (`src/core/hash_utils.py`) -/

/-- Python `BLOCK_SIZE` (crypto.py:20): 4 MiB. -/
def BLOCK_SIZE : Nat := 4 * 1024 * 1024

/-- Python `iter_file_blocks(file_path, block_size)` (hash_utils.py:55-68): read the
file in `block_size`-byte chunks until a read returns the empty string.  The
file's contents are the byte list; `f.read(0)` returns `b""`, so a zero block
size yields no chunks. -/
def iter_file_blocks (block_size : Nat) (file : List Nat) : List (List Nat) :=
  if block_size = 0 ∨ file = [] then []
  else file.take block_size :: iter_file_blocks block_size (file.drop block_size)
termination_by file.length
decreasing_by
  rename_i h
  push_neg at h
  have : 0 < file.length := List.length_pos.mpr h.2
  simp only [List.length_drop]
  omega

/-- Modelled from the spec: the import pipeline (its module is absent from the
source tree; only `iter_file_blocks` and `BLOCK_SIZE` are present) streams
each host file "chunked at 4 MiB", i.e. it calls `iter_file_blocks` with
`crypto.BLOCK_SIZE`. -/
def import_file_chunks (file : List Nat) : List (List Nat) :=
  iter_file_blocks BLOCK_SIZE file

/-! ## Repository-database singleton (`src/database/database.py`) -/

/-- A `RepositoryDatabase` handle: its repository path and whether
`_connection` is live (`None` ↦ `connected = false`). -/
structure DbHandle where
  repo_path : String
  connected : Bool
  deriving DecidableEq, Repr

/-- The module-level globals `_repo_db` and `_current_repo_path`
(database.py:251-252). -/
structure DbGlobals where
  repo_db : Option DbHandle
  current_repo_path : Option String
  deriving DecidableEq, Repr

/-- Python `RepositoryDatabase.connect` (database.py:40-57): succeeds when the host
path is reachable (`can_connect` is the environment: drive present, directory
creatable, sqlite open succeeding) and raises `FileNotFoundError`/`IOError`
otherwise, leaving the handle unconnected. -/
def db_connect (can_connect : String → Bool) (db : DbHandle) : Except VaultError DbHandle :=
  if can_connect db.repo_path then .ok { db with connected := true }
  else .error .ioFailure

/-- CASE 2 of `get_repository_database` (database.py:286-298): build a fresh
`RepositoryDatabase`, connect it — which may raise — and only then close the
old handle and overwrite the globals. -/
def switch_repository (can_connect : String → Bool) (g : DbGlobals)
    (repo_path norm_path : String) : Except VaultError (Option DbHandle) × DbGlobals :=
  match db_connect can_connect ⟨repo_path, false⟩ with
  | .ok new_db =>
      (.ok (some new_db), { repo_db := some new_db, current_repo_path := some norm_path })
  | .error e => (.error e, g)

/-- Python `get_repository_database(repo_path)` (database.py:264-298).  `none` asks
for the current handle; path normalization (`Path.resolve`) is modelled as the
identity on the already-normalized path strings of the model. -/
def get_repository_database (can_connect : String → Bool) (g : DbGlobals)
    (repo_path : Option String) : Except VaultError (Option DbHandle) × DbGlobals :=
  match repo_path with
  | none => (.ok g.repo_db, g)
  | some p =>
      let norm_path := p
      match g.repo_db with
      | some db =>
          if g.current_repo_path = some norm_path then
            if db.connected then (.ok (some db), g)
            else
              match db_connect can_connect db with
              | .ok db' => (.ok (some db'), { g with repo_db := some db' })
              | .error e => (.error e, g)
          else switch_repository can_connect g p norm_path
      | none => switch_repository can_connect g p norm_path

/-! ## Transaction nesting (`src/database/database.py`) -/

/-- A live sqlite connection together with `_transaction_depth`
(database.py:27-28): `committed` is the durable database state, `pending` the
state seen through the connection before `commit`. -/
structure Conn (α : Type) where
  committed : α
  pending : α
  transaction_depth : Nat

/-- Python `self._connection.commit()`. -/
def db_commit {α : Type} (c : Conn α) : Conn α := { c with committed := c.pending }

/-- Python `self._connection.rollback()`. -/
def db_rollback {α : Type} (c : Conn α) : Conn α := { c with pending := c.committed }

/-- Python `RepositoryDatabase.transaction` (database.py:65-88) run on an open
connection (the `conn is None` early-out does not apply, and the
`self._connection == conn` identity guard is vacuously true in this
single-threaded model): increment the depth, run the body, commit on success
or roll back on exception — but only when the depth at exit is 1 — and always
decrement the depth in the `finally`. -/
def transaction {α E : Type} (body : Conn α → Except E Unit × Conn α) (conn : Conn α) :
    Except E Unit × Conn α :=
  let c1 : Conn α := { conn with transaction_depth := conn.transaction_depth + 1 }
  match body c1 with
  | (.ok _, c2) =>
      let c3 := if c2.transaction_depth = 1 then db_commit c2 else c2
      (.ok (), { c3 with transaction_depth := c3.transaction_depth - 1 })
  | (.error e, c2) =>
      let c3 := if c2.transaction_depth = 1 then db_rollback c2 else c2
      (.error e, { c3 with transaction_depth := c3.transaction_depth - 1 })

/-! ## Global config store (`src/core/config.py`) -/

/-- One hex digit of `bytes.hex()` (lowercase). -/
def hexDigitChar (n : Nat) : Char := "0123456789abcdef".toList.getD n '0'

/-- The value of a hex digit, as accepted by `bytes.fromhex` (either case). -/
def hexDigitVal (c : Char) : Option Nat :=
  "0123456789abcdef".toList.findIdx? (· == c.toLower)

/-- Python `bytes.hex()` of a single byte: two lowercase hex digits. -/
def byteToHex (b : Nat) : List Char := [hexDigitChar (b / 16), hexDigitChar (b % 16)]

/-- Python `value.hex()`: each byte becomes two lowercase hex digits. -/
def bytesHex (bs : List Nat) : List Char := bs.flatMap byteToHex

/-- Python `bytes.fromhex(s)`: pairs of hex digits; `none` models the `ValueError`
on odd length or a non-hex character (which cannot arise for a value written
by `bytes.hex()`). -/
def bytesFromHex : List Char → Option (List Nat)
  | [] => some []
  | [_] => none
  | c1 :: c2 :: rest => do
      let hi ← hexDigitVal c1
      let lo ← hexDigitVal c2
      let tail ← bytesFromHex rest
      pure ((16 * hi + lo) :: tail)

/-- The `_config_data` JSON dictionary of `Config`, restricted to its
string-valued entries (the master-key fields are all strings). -/
def ConfigData := List (String × List Char)

/-- Python `self._config_data.get(key)`. -/
def config_get (cfg : ConfigData) (key : String) : Option (List Char) :=
  ((List.find? (fun e => decide (e.1 = key)) cfg)).map (·.2)

/-- Python `self._config_data[key] = value` (followed by `_save_config`, whose file
write the model folds into the dictionary update). -/
def config_set (cfg : ConfigData) (key : String) (v : List Char) : ConfigData :=
  (key, v) :: List.filter (fun e => decide (e.1 ≠ key)) cfg

/-- The common getter shape of `Config.encrypted_master_key`,
`Config.master_key_salt` and `Config.master_key_nonce`
(config.py:83-87, 95-99, 119-123):
`bytes.fromhex(h) if h else None` — an absent key and the empty string both
give `None`. -/
def master_key_field_get (cfg : ConfigData) (key : String) : Option (List Nat) :=
  match config_get cfg key with
  | none => none
  | some field_hex => if field_hex = [] then none else bytesFromHex field_hex

/-- The common setter shape of the three master-key fields
(config.py:89-93, 101-105, 125-129): store `value.hex()`. -/
def master_key_field_set (cfg : ConfigData) (key : String) (value : List Nat) : ConfigData :=
  config_set cfg key (bytesHex value)

/-- Python `Config.encrypted_master_key` getter (config.py:83-87). -/
def encrypted_master_key_get (cfg : ConfigData) : Option (List Nat) :=
  master_key_field_get cfg "encrypted_master_key"

/-- Python `Config.encrypted_master_key` setter (config.py:89-93). -/
def encrypted_master_key_set (cfg : ConfigData) (value : List Nat) : ConfigData :=
  master_key_field_set cfg "encrypted_master_key" value

/-- Python `Config.master_key_salt` getter (config.py:95-99). -/
def master_key_salt_get (cfg : ConfigData) : Option (List Nat) :=
  master_key_field_get cfg "master_key_salt"

/-- Python `Config.master_key_salt` setter (config.py:101-105). -/
def master_key_salt_set (cfg : ConfigData) (value : List Nat) : ConfigData :=
  master_key_field_set cfg "master_key_salt" value

/-- Python `Config.master_key_nonce` getter (config.py:119-123). -/
def master_key_nonce_get (cfg : ConfigData) : Option (List Nat) :=
  master_key_field_get cfg "master_key_nonce"

/-- Python `Config.master_key_nonce` setter (config.py:125-129). -/
def master_key_nonce_set (cfg : ConfigData) (value : List Nat) : ConfigData :=
  master_key_field_set cfg "master_key_nonce" value

/-! ## Claims -/

/-- C4: after `setup_master_key` with PIN `P` persists the wrapped key,
`unlock(P)` (the `_verify_pin` attempt) returns exactly the same master key,
and `unlock(P')` for any `P' ≠ P` yields `CryptoFailure`; the master key is
never returned for a wrong PIN. -/
theorem claim_C4_pin_roundtrip (master_key : B) (P P' : String) (salt nonce : B)
    (hne : P' ≠ P) :
    verify_pin (setup_master_key master_key P salt nonce) P = .ok master_key ∧
    verify_pin (setup_master_key master_key P salt nonce) P' = .error .cryptoFailure := by
  constructor
  · simp [verify_pin, setup_master_key, encrypt_master_key, decrypt_master_key,
      decrypt_block, derive_key_from_pin, verify_key_hash, compute_key_hash,
      Bind.bind, Except.bind]
  · simp only [verify_pin, setup_master_key, encrypt_master_key, decrypt_master_key,
      decrypt_block, derive_key_from_pin]
    have hk : B.kdfKey P salt ≠ B.kdfKey P' salt := by
      intro h
      exact hne (by injection h with h1 h2; exact h1.symm)
    simp [hk, Bind.bind, Except.bind]

/-- Witness for C4 at a concrete master key, PINs "1234" and "9999", salt and
nonce. -/
theorem claim_C4_pin_roundtrip_witness :
    ("9999" : String) ≠ "1234" ∧
    (verify_pin (setup_master_key (.raw [1]) "1234" (.raw [2]) (.raw [3])) "1234" =
        .ok (.raw [1]) ∧
     verify_pin (setup_master_key (.raw [1]) "1234" (.raw [2]) (.raw [3])) "9999" =
        .error .cryptoFailure) :=
  ⟨by decide, claim_C4_pin_roundtrip (.raw [1]) "1234" "9999" (.raw [2]) (.raw [3]) (by decide)⟩

/-- C5: `prepare_block` computes `hash = keyed_hash(plaintext)`, uses the
fresh per-block salt, seals the plaintext under the derived key
`block_key = keyed_hash(master_key ‖ block_salt)` with the fresh nonce (so the
ciphertext re-opens to the plaintext under `derive_file_key`), and allocates
the fresh sharded relative path — as a pure function of the master key, the
data and the fresh randomness, taking no database or shared state. -/
theorem claim_C5_prepare_block (master_key data salt nonce : B) (uuidHex : String) :
    (prepare_block master_key data salt nonce uuidHex).hash = compute_block_hash data ∧
    (prepare_block master_key data salt nonce uuidHex).salt = salt ∧
    (prepare_block master_key data salt nonce uuidHex).encrypted_data =
      B.sealed (.blake (.cat master_key salt)) nonce data ∧
    (prepare_block master_key data salt nonce uuidHex).nonce = nonce ∧
    (prepare_block master_key data salt nonce uuidHex).relative_path =
      generate_block_path uuidHex ∧
    (prepare_block master_key data salt nonce uuidHex).original_size = data.len ∧
    decrypt_block (prepare_block master_key data salt nonce uuidHex).encrypted_data
      (derive_file_key master_key salt) nonce = .ok data := by
  refine ⟨rfl, rfl, rfl, rfl, rfl, rfl, ?_⟩
  simp [prepare_block, encrypt_block, decrypt_block, derive_file_key]

/-- The accumulator only grows under the duplicate-avoiding insert used by
`Disk.mkdirParents`. -/
lemma subset_foldl_dirInsert (l acc : List String) :
    acc ⊆ l.foldl (fun a p => if p ∈ a then a else p :: a) acc := by
  induction l generalizing acc with
  | nil => exact fun _ h => h
  | cons p rest ih =>
      intro x hx
      refine ih (if p ∈ acc then acc else p :: acc) ?_
      by_cases hp : p ∈ acc
      · simpa [hp] using hx
      · simp [hp, hx]

/-- Every inserted element belongs to the folded accumulator. -/
lemma mem_foldl_dirInsert (l acc : List String) (d : String) (hd : d ∈ l) :
    d ∈ l.foldl (fun a p => if p ∈ a then a else p :: a) acc := by
  induction l generalizing acc with
  | nil => cases hd
  | cons p rest ih =>
      rcases List.mem_cons.mp hd with h | h
      · subst h
        refine subset_foldl_dirInsert rest _ ?_
        by_cases hp : d ∈ acc
        · simp [hp]
        · simp [hp]
      · exact ih _ h

/-- C1: `store_prepared_block` deduplicates by content hash.  On a hash hit it
increments the existing row's refcount by 1, returns `(existing, false)` and
leaves the disk untouched; on a miss it creates the shard path's parent
directories, writes the ciphertext blob, appends a new row with
`reference_count = 1` and returns `(new, true)`. -/
theorem claim_C1_store_dedup (st : RepoState) (prepared : PreparedBlock) :
    (∀ existing, get_by_hash st.blocks prepared.hash = some existing →
       store_prepared_block true st prepared =
         (.ok ({ existing with reference_count := existing.reference_count + 1 }, false),
          { st with blocks := increment_reference st.blocks existing.id }) ∧
       (store_prepared_block true st prepared).2.disk = st.disk) ∧
    (get_by_hash st.blocks prepared.hash = none →
       ∃ newBlock,
         (store_prepared_block true st prepared).1 = .ok (newBlock, true) ∧
         newBlock.reference_count = 1 ∧
         newBlock.hash = prepared.hash ∧
         newBlock.relative_path = prepared.relative_path ∧
         (store_prepared_block true st prepared).2.blocks = st.blocks ++ [newBlock] ∧
         (store_prepared_block true st prepared).2.disk.lookupFile prepared.relative_path =
           some prepared.encrypted_data ∧
         ∀ d ∈ parentDirs prepared.relative_path,
           d ∈ (store_prepared_block true st prepared).2.disk.dirs) := by
  constructor
  · intro existing hex
    simp [store_prepared_block, hex]
  · intro hnone
    refine ⟨(block_create st.blocks prepared.hash prepared.relative_path
        prepared.size prepared.salt prepared.nonce).1, ?_, rfl, rfl, rfl, ?_, ?_, ?_⟩
    · simp [store_prepared_block, hnone, block_create]
    · simp [store_prepared_block, hnone, block_create]
    · simp [store_prepared_block, hnone, Disk.lookupFile, Disk.writeFile]
    · intro d hd
      simp only [store_prepared_block, hnone, Disk.writeFile, Disk.mkdirParents]
      exact mem_foldl_dirInsert _ _ _ hd

/-- Witness for C1: a dedup hit against a one-row table leaves the disk
untouched, and a miss against an empty repository stores a fresh refcount-1
row and blob. -/
theorem claim_C1_store_dedup_witness :
    (get_by_hash [⟨1, .raw [9], "aa/bb/u1", 21, .raw [2], .raw [3], 1⟩] (B.raw [9]) =
       some ⟨1, .raw [9], "aa/bb/u1", 21, .raw [2], .raw [3], 1⟩) ∧
    ((store_prepared_block true ⟨[⟨1, .raw [9], "aa/bb/u1", 21, .raw [2], .raw [3], 1⟩], ⟨[], []⟩⟩
        ⟨.raw [9], "cc/dd/u2", 21, .raw [4], .raw [5], .raw [8], 5⟩).2.disk = ⟨[], []⟩) ∧
    (get_by_hash ([] : List BlockRow) (B.raw [9]) = none) ∧
    (∃ newBlock,
       (store_prepared_block true ⟨[], ⟨[], []⟩⟩
           ⟨.raw [9], "cc/dd/u2", 21, .raw [4], .raw [5], .raw [8], 5⟩).1 =
         .ok (newBlock, true) ∧
       newBlock.reference_count = 1 ∧
       newBlock.hash = B.raw [9] ∧
       newBlock.relative_path = "cc/dd/u2" ∧
       (store_prepared_block true ⟨[], ⟨[], []⟩⟩
           ⟨.raw [9], "cc/dd/u2", 21, .raw [4], .raw [5], .raw [8], 5⟩).2.blocks =
         [] ++ [newBlock] ∧
       (store_prepared_block true ⟨[], ⟨[], []⟩⟩
           ⟨.raw [9], "cc/dd/u2", 21, .raw [4], .raw [5], .raw [8], 5⟩).2.disk.lookupFile
           "cc/dd/u2" = some (.raw [8]) ∧
       ∀ d ∈ parentDirs "cc/dd/u2",
         d ∈ (store_prepared_block true ⟨[], ⟨[], []⟩⟩
           ⟨.raw [9], "cc/dd/u2", 21, .raw [4], .raw [5], .raw [8], 5⟩).2.disk.dirs) := by
  refine ⟨by decide, ?_, by decide, ?_⟩
  · exact ((claim_C1_store_dedup ⟨[⟨1, .raw [9], "aa/bb/u1", 21, .raw [2], .raw [3], 1⟩],
      ⟨[], []⟩⟩ ⟨.raw [9], "cc/dd/u2", 21, .raw [4], .raw [5], .raw [8], 5⟩).1
      ⟨1, .raw [9], "aa/bb/u1", 21, .raw [2], .raw [3], 1⟩ (by decide)).2
  · exact (claim_C1_store_dedup ⟨[], ⟨[], []⟩⟩
      ⟨.raw [9], "cc/dd/u2", 21, .raw [4], .raw [5], .raw [8], 5⟩).2 (by decide)

/-- Counterexample to C2: committing a fresh block into an empty repository
with the database insert failing (after the blob write) leaves the blob on
disk — the claimed best-effort removal does not happen, and
`rollback_temp_blocks` changes nothing.  A failed commit therefore CAN leave
an orphan blob. -/
theorem claim_C2_counterexample :
    (store_prepared_block false ⟨[], ⟨[], []⟩⟩
        ⟨.raw [9], "aa/bb/u1", 21, .raw [2], .raw [3], .raw [7], 5⟩).1 = .error .dbError ∧
    (store_prepared_block false ⟨[], ⟨[], []⟩⟩
        ⟨.raw [9], "aa/bb/u1", 21, .raw [2], .raw [3], .raw [7], 5⟩).2.disk.lookupFile
        "aa/bb/u1" = some (.raw [7]) ∧
    rollback_temp_blocks (store_prepared_block false ⟨[], ⟨[], []⟩⟩
        ⟨.raw [9], "aa/bb/u1", 21, .raw [2], .raw [3], .raw [7], 5⟩).2 =
      (store_prepared_block false ⟨[], ⟨[], []⟩⟩
        ⟨.raw [9], "aa/bb/u1", 21, .raw [2], .raw [3], .raw [7], 5⟩).2 :=
  ⟨rfl, rfl, rfl⟩

/-- C2 amended: `store_prepared_block` has no error handling; when the
`blocks`-row insert fails after the blob write, the error propagates with no
new row inserted, but the already-written blob is NOT removed — it remains on
disk as an orphan — and `rollback_temp_blocks` is a no-op. -/
theorem claim_C2_no_cleanup (st : RepoState) (prepared : PreparedBlock)
    (hnone : get_by_hash st.blocks prepared.hash = none) :
    (store_prepared_block false st prepared).1 = .error .dbError ∧
    (store_prepared_block false st prepared).2.blocks = st.blocks ∧
    (store_prepared_block false st prepared).2.disk.lookupFile prepared.relative_path =
      some prepared.encrypted_data ∧
    ∀ s, rollback_temp_blocks s = s := by
  refine ⟨?_, ?_, ?_, fun s => rfl⟩
  all_goals simp [store_prepared_block, hnone, Disk.lookupFile, Disk.writeFile]

/-- Witness for the amended C2 at a concrete fresh block. -/
theorem claim_C2_no_cleanup_witness :
    (get_by_hash ([] : List BlockRow) (B.raw [9]) = none) ∧
    ((store_prepared_block false ⟨[], ⟨[], []⟩⟩
        ⟨.raw [9], "aa/bb/u1", 21, .raw [2], .raw [3], .raw [7], 5⟩).1 = .error .dbError ∧
     (store_prepared_block false ⟨[], ⟨[], []⟩⟩
        ⟨.raw [9], "aa/bb/u1", 21, .raw [2], .raw [3], .raw [7], 5⟩).2.blocks = [] ∧
     (store_prepared_block false ⟨[], ⟨[], []⟩⟩
        ⟨.raw [9], "aa/bb/u1", 21, .raw [2], .raw [3], .raw [7], 5⟩).2.disk.lookupFile
        "aa/bb/u1" = some (.raw [7]) ∧
     ∀ s, rollback_temp_blocks s = s) :=
  ⟨by decide, claim_C2_no_cleanup ⟨[], ⟨[], []⟩⟩
    ⟨.raw [9], "aa/bb/u1", 21, .raw [2], .raw [3], .raw [7], 5⟩ (by decide)⟩

/-- Python `find?` by id commutes with the refcount-decrementing map of
`decrement_reference`. -/
lemma find?_id_decrement (rows : List BlockRow) (i : Nat) :
    (rows.map (fun r =>
        if r.id = i then { r with reference_count := r.reference_count - 1 } else r)).find?
        (fun r => decide (r.id = i)) =
      (rows.find? (fun r => decide (r.id = i))).map
        (fun r => { r with reference_count := r.reference_count - 1 }) := by
  induction rows with
  | nil => rfl
  | cons r rs ih =>
      by_cases h : r.id = i
      · simp [List.find?_cons, h]
      · simp [List.find?_cons, h, ih]

/-- After `block_row_delete` no row with the deleted id remains. -/
lemma find?_block_row_delete (rows : List BlockRow) (i : Nat) :
    (block_row_delete rows i).find? (fun r => decide (r.id = i)) = none := by
  simp only [block_row_delete, List.find?_eq_none, List.mem_filter]
  intro x hx
  simp only [decide_eq_true_eq] at hx ⊢
  exact hx.2

/-- Unlinking a path removes it from the file map. -/
lemma lookupFile_removeFile (d : Disk) (p : String) :
    (d.removeFile p).lookupFile p = none := by
  have h : (List.filter (fun f : String × B => decide (f.1 ≠ p)) d.files).find?
      (fun f => decide (f.1 = p)) = none := by
    simp only [List.find?_eq_none, List.mem_filter]
    intro x hx
    simp only [decide_eq_true_eq] at hx ⊢
    exact hx.2
  simp [Disk.removeFile, Disk.lookupFile, h]

/-- Counterexample to C3: releasing the last reference of a stored block
removes the BLOB first and the database row second — the opposite of the
claimed "deletes the row and then the blob" order. -/
theorem claim_C3_counterexample :
    (delete_block ⟨[⟨1, .raw [9], "aa/bb/u1", 21, .raw [2], .raw [3], 1⟩],
        ⟨["aa", "aa/bb"], [("aa/bb/u1", .raw [7])]⟩⟩
        ⟨1, .raw [9], "aa/bb/u1", 21, .raw [2], .raw [3], 1⟩).2.2 =
      [.deletedBlob "aa/bb/u1", .deletedRow 1] ∧
    [DeleteEvent.deletedBlob "aa/bb/u1", DeleteEvent.deletedRow 1] ≠
      [DeleteEvent.deletedRow 1, DeleteEvent.deletedBlob "aa/bb/u1"] := by
  decide

/-- C3 amended: `delete_block` decrements the block's refcount; when the
refcount reaches zero it deletes the BLOB first and THEN the database row and
returns `true`, and when the refcount stays positive it does nothing further
(disk untouched, no removal events) and returns `false`. -/
theorem claim_C3_release (st : RepoState) (block : BlockRow) (row : BlockRow)
    (hrow : st.blocks.find? (fun r => decide (r.id = block.id)) = some row) :
    (row.reference_count ≤ 1 →
       (delete_block st block).1 = true ∧
       (delete_block st block).2.1.disk.lookupFile block.relative_path = none ∧
       (delete_block st block).2.1.blocks.find? (fun r => decide (r.id = block.id)) = none ∧
       (delete_block st block).2.2 =
         [.deletedBlob block.relative_path, .deletedRow block.id]) ∧
    (1 < row.reference_count →
       (delete_block st block).1 = false ∧
       (delete_block st block).2.1.disk = st.disk ∧
       (delete_block st block).2.1.blocks.find? (fun r => decide (r.id = block.id)) =
         some { row with reference_count := row.reference_count - 1 } ∧
       (delete_block st block).2.2 = []) := by
  have hdec : decrement_reference st.blocks block.id =
      (decide (row.reference_count - 1 = 0),
       st.blocks.map (fun r =>
         if r.id = block.id then { r with reference_count := r.reference_count - 1 } else r)) := by
    unfold decrement_reference
    simp only [find?_id_decrement, hrow, Option.map_some']
  constructor
  · intro hle
    have hb : decide (row.reference_count - 1 = 0) = true := by
      simp only [decide_eq_true_eq]
      omega
    have hres : delete_block st block =
        (true,
         ⟨block_row_delete (st.blocks.map (fun r =>
              if r.id = block.id then { r with reference_count := r.reference_count - 1 }
              else r)) block.id,
          (delete_block_file st.disk block).2⟩,
         [.deletedBlob block.relative_path, .deletedRow block.id]) := by
      unfold delete_block
      rw [hdec, hb]
      rfl
    rw [hres]
    refine ⟨rfl, ?_, find?_block_row_delete _ _, rfl⟩
    unfold delete_block_file
    cases hll : st.disk.lookupFile block.relative_path with
    | none => simpa using hll
    | some e => simpa using lookupFile_removeFile st.disk block.relative_path
  · intro hgt
    have hb : decide (row.reference_count - 1 = 0) = false := by
      simp only [decide_eq_false_iff_not]
      omega
    have hres : delete_block st block =
        (false,
         { st with blocks := st.blocks.map (fun r =>
             if r.id = block.id then { r with reference_count := r.reference_count - 1 }
             else r) },
         []) := by
      unfold delete_block
      rw [hdec, hb]
      rfl
    rw [hres]
    refine ⟨rfl, rfl, ?_, rfl⟩
    rw [find?_id_decrement, hrow]
    rfl

/-- Witness for the amended C3: deleting a refcount-1 block removes blob and
row (blob event first), deleting a refcount-2 block only decrements. -/
theorem claim_C3_release_witness :
    ([(⟨1, .raw [9], "aa/bb/u1", 21, .raw [2], .raw [3], 1⟩ : BlockRow)].find?
        (fun r => decide (r.id = 1)) =
      some ⟨1, .raw [9], "aa/bb/u1", 21, .raw [2], .raw [3], 1⟩) ∧
    ((1 : Nat) ≤ 1) ∧
    ((delete_block ⟨[⟨1, .raw [9], "aa/bb/u1", 21, .raw [2], .raw [3], 1⟩],
        ⟨["aa", "aa/bb"], [("aa/bb/u1", .raw [7])]⟩⟩
        ⟨1, .raw [9], "aa/bb/u1", 21, .raw [2], .raw [3], 1⟩).1 = true ∧
     (delete_block ⟨[⟨1, .raw [9], "aa/bb/u1", 21, .raw [2], .raw [3], 1⟩],
        ⟨["aa", "aa/bb"], [("aa/bb/u1", .raw [7])]⟩⟩
        ⟨1, .raw [9], "aa/bb/u1", 21, .raw [2], .raw [3], 1⟩).2.1.disk.lookupFile
        "aa/bb/u1" = none ∧
     (delete_block ⟨[⟨1, .raw [9], "aa/bb/u1", 21, .raw [2], .raw [3], 1⟩],
        ⟨["aa", "aa/bb"], [("aa/bb/u1", .raw [7])]⟩⟩
        ⟨1, .raw [9], "aa/bb/u1", 21, .raw [2], .raw [3], 1⟩).2.1.blocks.find?
        (fun r => decide (r.id = 1)) = none ∧
     (delete_block ⟨[⟨1, .raw [9], "aa/bb/u1", 21, .raw [2], .raw [3], 1⟩],
        ⟨["aa", "aa/bb"], [("aa/bb/u1", .raw [7])]⟩⟩
        ⟨1, .raw [9], "aa/bb/u1", 21, .raw [2], .raw [3], 1⟩).2.2 =
       [.deletedBlob "aa/bb/u1", .deletedRow 1]) ∧
    ((1 : Nat) < 2) ∧
    ((delete_block ⟨[⟨1, .raw [9], "aa/bb/u1", 21, .raw [2], .raw [3], 2⟩],
        ⟨["aa", "aa/bb"], [("aa/bb/u1", .raw [7])]⟩⟩
        ⟨1, .raw [9], "aa/bb/u1", 21, .raw [2], .raw [3], 2⟩).1 = false ∧
     (delete_block ⟨[⟨1, .raw [9], "aa/bb/u1", 21, .raw [2], .raw [3], 2⟩],
        ⟨["aa", "aa/bb"], [("aa/bb/u1", .raw [7])]⟩⟩
        ⟨1, .raw [9], "aa/bb/u1", 21, .raw [2], .raw [3], 2⟩).2.1.disk =
       ⟨["aa", "aa/bb"], [("aa/bb/u1", .raw [7])]⟩ ∧
     (delete_block ⟨[⟨1, .raw [9], "aa/bb/u1", 21, .raw [2], .raw [3], 2⟩],
        ⟨["aa", "aa/bb"], [("aa/bb/u1", .raw [7])]⟩⟩
        ⟨1, .raw [9], "aa/bb/u1", 21, .raw [2], .raw [3], 2⟩).2.1.blocks.find?
        (fun r => decide (r.id = 1)) =
       some ⟨1, .raw [9], "aa/bb/u1", 21, .raw [2], .raw [3], 1⟩ ∧
     (delete_block ⟨[⟨1, .raw [9], "aa/bb/u1", 21, .raw [2], .raw [3], 2⟩],
        ⟨["aa", "aa/bb"], [("aa/bb/u1", .raw [7])]⟩⟩
        ⟨1, .raw [9], "aa/bb/u1", 21, .raw [2], .raw [3], 2⟩).2.2 = []) := by
  refine ⟨by decide, by decide, ?_, by decide, ?_⟩
  · exact (claim_C3_release ⟨[⟨1, .raw [9], "aa/bb/u1", 21, .raw [2], .raw [3], 1⟩],
      ⟨["aa", "aa/bb"], [("aa/bb/u1", .raw [7])]⟩⟩
      ⟨1, .raw [9], "aa/bb/u1", 21, .raw [2], .raw [3], 1⟩
      ⟨1, .raw [9], "aa/bb/u1", 21, .raw [2], .raw [3], 1⟩ (by decide)).1 (by decide)
  · exact (claim_C3_release ⟨[⟨1, .raw [9], "aa/bb/u1", 21, .raw [2], .raw [3], 2⟩],
      ⟨["aa", "aa/bb"], [("aa/bb/u1", .raw [7])]⟩⟩
      ⟨1, .raw [9], "aa/bb/u1", 21, .raw [2], .raw [3], 2⟩
      ⟨1, .raw [9], "aa/bb/u1", 21, .raw [2], .raw [3], 2⟩ (by decide)).2 (by decide)

/-- The defining equation of `iter_file_blocks`. -/
lemma iter_file_blocks_eq (block_size : Nat) (file : List Nat) :
    iter_file_blocks block_size file =
      if block_size = 0 ∨ file = [] then []
      else file.take block_size :: iter_file_blocks block_size (file.drop block_size) := by
  rw [iter_file_blocks]

/-- Reading an empty file yields no chunks. -/
lemma iter_file_blocks_nil (block_size : Nat) : iter_file_blocks block_size [] = [] := by
  rw [iter_file_blocks_eq]
  simp

/-- The chunks concatenate back to the file. -/
lemma iter_file_blocks_flatten (bs : Nat) (hbs : 0 < bs) (file : List Nat) :
    (iter_file_blocks bs file).flatten = file := by
  rw [iter_file_blocks_eq]
  by_cases hf : file = []
  · simp [hf]
  · rw [if_neg (by push_neg; exact ⟨by omega, hf⟩)]
    simp only [List.flatten_cons]
    rw [iter_file_blocks_flatten bs hbs (file.drop bs)]
    exact List.take_append_drop bs file
termination_by file.length
decreasing_by
  have : 0 < file.length := List.length_pos.mpr hf
  simp only [List.length_drop]
  omega

/-- Every chunk is non-empty and at most `bs` bytes. -/
lemma iter_file_blocks_mem_len (bs : Nat) (hbs : 0 < bs) (file : List Nat) :
    ∀ c ∈ iter_file_blocks bs file, c ≠ [] ∧ c.length ≤ bs := by
  rw [iter_file_blocks_eq]
  by_cases hf : file = []
  · simp [hf]
  · rw [if_neg (by push_neg; exact ⟨by omega, hf⟩)]
    intro c hc
    rcases List.mem_cons.mp hc with h | h
    · subst h
      refine ⟨?_, ?_⟩
      · simp only [ne_eq, List.take_eq_nil_iff]
        push_neg
        exact ⟨by omega, hf⟩
      · simp only [List.length_take]
        omega
    · exact iter_file_blocks_mem_len bs hbs (file.drop bs) c h
termination_by file.length
decreasing_by
  have : 0 < file.length := List.length_pos.mpr hf
  simp only [List.length_drop]
  omega

/-- Every chunk except possibly the last is exactly `bs` bytes. -/
lemma iter_file_blocks_dropLast_len (bs : Nat) (hbs : 0 < bs) (file : List Nat) :
    ∀ c ∈ (iter_file_blocks bs file).dropLast, c.length = bs := by
  rw [iter_file_blocks_eq]
  by_cases hf : file = []
  · simp [hf]
  · rw [if_neg (by push_neg; exact ⟨by omega, hf⟩)]
    cases hrest : iter_file_blocks bs (file.drop bs) with
    | nil => simp
    | cons r rs =>
        intro c hc
        rw [List.dropLast_cons_of_ne_nil (by simp)] at hc
        rcases List.mem_cons.mp hc with h | h
        · subst h
          have hdrop : file.drop bs ≠ [] := by
            intro hd
            rw [hd, iter_file_blocks_nil] at hrest
            exact List.cons_ne_nil r rs hrest.symm
          have : bs < file.length := by
            by_contra hle
            exact hdrop (List.drop_eq_nil_of_le (by omega))
          simp only [List.length_take]
          omega
        · have := iter_file_blocks_dropLast_len bs hbs (file.drop bs)
          rw [hrest] at this
          exact this c h
termination_by file.length
decreasing_by
  have : 0 < file.length := List.length_pos.mpr hf
  simp only [List.length_drop]
  omega

/-- The number of chunks is `⌈file.length / bs⌉`. -/
lemma iter_file_blocks_count (bs : Nat) (hbs : 0 < bs) (file : List Nat) :
    (iter_file_blocks bs file).length = (file.length + bs - 1) / bs := by
  rw [iter_file_blocks_eq]
  by_cases hf : file = []
  · rw [if_pos (Or.inr hf), hf]
    simp only [List.length_nil]
    rw [Nat.div_eq_of_lt (by omega)]
  · rw [if_neg (by push_neg; exact ⟨by omega, hf⟩)]
    simp only [List.length_cons]
    rw [iter_file_blocks_count bs hbs (file.drop bs)]
    simp only [List.length_drop]
    have hpos : 0 < file.length := List.length_pos.mpr hf
    by_cases hle : file.length ≤ bs
    · have h1 : file.length - bs = 0 := by omega
      have hL : (0 + bs - 1) / bs = 0 := Nat.div_eq_of_lt (by omega)
      have hR : (file.length + bs - 1) / bs = 1 := Nat.div_eq_of_lt_le (by omega) (by omega)
      rw [h1, hL, hR]
    · have h2 : file.length + bs - 1 = (file.length - bs + bs - 1) + bs := by omega
      rw [h2, Nat.add_div_right _ hbs]
termination_by file.length
decreasing_by
  have : 0 < file.length := List.length_pos.mpr hf
  simp only [List.length_drop]
  omega

/-- C6: the import pipeline splits every host file into consecutive 4 MiB
plaintext chunks whose concatenation is the file: every chunk but the last is
exactly `BLOCK_SIZE = 4194304` bytes, every chunk is non-empty and at most
`BLOCK_SIZE` bytes, and a file of `s` bytes yields `⌈s / BLOCK_SIZE⌉`
chunks. -/
theorem claim_C6_chunking (file : List Nat) :
    (import_file_chunks file).flatten = file ∧
    (∀ c ∈ (import_file_chunks file).dropLast, c.length = BLOCK_SIZE) ∧
    (∀ c ∈ import_file_chunks file, c ≠ [] ∧ c.length ≤ BLOCK_SIZE) ∧
    (import_file_chunks file).length = (file.length + BLOCK_SIZE - 1) / BLOCK_SIZE := by
  have hbs : 0 < BLOCK_SIZE := by norm_num [BLOCK_SIZE]
  exact ⟨iter_file_blocks_flatten _ hbs file, iter_file_blocks_dropLast_len _ hbs file,
    iter_file_blocks_mem_len _ hbs file, iter_file_blocks_count _ hbs file⟩

/-- Witness for C6 on a concrete 5-byte file: one chunk, equal to the file. -/
theorem claim_C6_chunking_witness :
    List.replicate 5 7 ∈ import_file_chunks (List.replicate 5 7) ∧
    (List.replicate 5 7 ≠ ([] : List Nat) ∧ (List.replicate 5 7).length ≤ BLOCK_SIZE) ∧
    (import_file_chunks (List.replicate 5 7)).flatten = List.replicate 5 7 ∧
    (import_file_chunks (List.replicate 5 7)).length =
      ((List.replicate 5 (7 : Nat)).length + BLOCK_SIZE - 1) / BLOCK_SIZE := by
  have hch : import_file_chunks (List.replicate 5 7) = [List.replicate 5 7] := by
    rw [import_file_chunks, iter_file_blocks_eq]
    rw [if_neg (by norm_num [BLOCK_SIZE])]
    norm_num [BLOCK_SIZE, List.take_replicate, List.drop_replicate]
    exact iter_file_blocks_nil _
  refine ⟨?_, ?_, (claim_C6_chunking _).1, (claim_C6_chunking _).2.2.2⟩
  · rw [hch]
    exact List.mem_singleton.mpr rfl
  · exact (claim_C6_chunking _).2.2.1 _ (by rw [hch]; exact List.mem_singleton.mpr rfl)

/-- C7: `retrieve_block_data` on a block whose blob file is absent fails with
`MissingBlob` (no zero-fill, no partial data); when the blob is present it
fails with `CryptoFailure` exactly when AEAD authentication under the
re-derived key fails, and otherwise returns the original plaintext chunk. -/
theorem claim_C7_read (disk : Disk) (master_key : B) (block : BlockRow) :
    (disk.lookupFile block.relative_path = none →
       retrieve_block_data disk master_key block = .error .missingBlob) ∧
    (∀ enc, disk.lookupFile block.relative_path = some enc →
       (retrieve_block_data disk master_key block = .error .cryptoFailure ↔
         ¬ aead_auth_ok enc (derive_file_key master_key block.salt) block.nonce)) ∧
    (∀ m, disk.lookupFile block.relative_path =
        some (.sealed (derive_file_key master_key block.salt) block.nonce m) →
       retrieve_block_data disk master_key block = .ok m) := by
  refine ⟨?_, ?_, ?_⟩
  · intro h
    simp [retrieve_block_data, h]
  · intro enc h
    simp only [retrieve_block_data, h]
    constructor
    · intro herr hauth
      obtain ⟨m, rfl⟩ := hauth
      simp [decrypt_block] at herr
    · intro hnauth
      cases enc with
      | sealed k n m =>
          by_cases hk : k = derive_file_key master_key block.salt ∧ n = block.nonce
          · exact absurd ⟨m, by rw [hk.1, hk.2]⟩ hnauth
          · simp [decrypt_block, hk]
      | raw l => simp [decrypt_block]
      | cat a b => simp [decrypt_block]
      | kdfKey p s => simp [decrypt_block]
      | blake x => simp [decrypt_block]
  · intro m h
    simp [retrieve_block_data, h, decrypt_block]

/-- Witness for C7: a missing blob raises `MissingBlob`, an unauthentic blob
raises `CryptoFailure`, a well-formed blob decrypts to its plaintext. -/
theorem claim_C7_read_witness :
    (Disk.lookupFile ⟨[], [("gg/hh/u3", B.sealed (derive_file_key (B.raw [0]) (B.raw [2]))
        (B.raw [3]) (B.raw [1, 2])), ("ee/ff/u4", B.raw [4])]⟩ "no/pe/u9" = none) ∧
    retrieve_block_data ⟨[], [("gg/hh/u3", B.sealed (derive_file_key (B.raw [0]) (B.raw [2]))
        (B.raw [3]) (B.raw [1, 2])), ("ee/ff/u4", B.raw [4])]⟩ (B.raw [0])
        ⟨1, .raw [9], "no/pe/u9", 0, .raw [2], .raw [3], 1⟩ = .error .missingBlob ∧
    (¬ aead_auth_ok (B.raw [4]) (derive_file_key (B.raw [0]) (B.raw [2])) (B.raw [3])) ∧
    retrieve_block_data ⟨[], [("gg/hh/u3", B.sealed (derive_file_key (B.raw [0]) (B.raw [2]))
        (B.raw [3]) (B.raw [1, 2])), ("ee/ff/u4", B.raw [4])]⟩ (B.raw [0])
        ⟨2, .raw [9], "ee/ff/u4", 0, .raw [2], .raw [3], 1⟩ = .error .cryptoFailure ∧
    retrieve_block_data ⟨[], [("gg/hh/u3", B.sealed (derive_file_key (B.raw [0]) (B.raw [2]))
        (B.raw [3]) (B.raw [1, 2])), ("ee/ff/u4", B.raw [4])]⟩ (B.raw [0])
        ⟨3, .raw [9], "gg/hh/u3", 0, .raw [2], .raw [3], 1⟩ = .ok (.raw [1, 2]) := by
  refine ⟨by decide, ?_, by decide, ?_, ?_⟩
  · exact (claim_C7_read _ _ _).1 (by decide)
  · exact ((claim_C7_read ⟨[], [("gg/hh/u3", B.sealed (derive_file_key (B.raw [0]) (B.raw [2]))
      (B.raw [3]) (B.raw [1, 2])), ("ee/ff/u4", B.raw [4])]⟩ (B.raw [0])
      ⟨2, .raw [9], "ee/ff/u4", 0, .raw [2], .raw [3], 1⟩).2.1 (B.raw [4])
      (by decide)).mpr (by decide)
  · exact (claim_C7_read ⟨[], [("gg/hh/u3", B.sealed (derive_file_key (B.raw [0]) (B.raw [2]))
      (B.raw [3]) (B.raw [1, 2])), ("ee/ff/u4", B.raw [4])]⟩ (B.raw [0])
      ⟨3, .raw [9], "gg/hh/u3", 0, .raw [2], .raw [3], 1⟩).2.2 (B.raw [1, 2]) (by decide)

/-- C8: when switching the active repository, a failed open of the new
repository's database leaves the previously open connection and the recorded
current repository path unchanged; the globals are replaced only after the new
connection succeeds (and then hold a connected handle). -/
theorem claim_C8_switch (can_connect : String → Bool) (g : DbGlobals) (p : String) :
    (∀ e, (get_repository_database can_connect g (some p)).1 = .error e →
       (get_repository_database can_connect g (some p)).2 = g) ∧
    ((get_repository_database can_connect g (some p)).2 ≠ g →
       ∃ db, (get_repository_database can_connect g (some p)).1 = .ok (some db) ∧
         db.connected = true ∧
         (get_repository_database can_connect g (some p)).2.repo_db = some db) := by
  cases hdb : g.repo_db with
  | none =>
      by_cases hc : can_connect p
      · have hres : get_repository_database can_connect g (some p) =
            (.ok (some ⟨p, true⟩), ⟨some ⟨p, true⟩, some p⟩) := by
          simp [get_repository_database, switch_repository, db_connect, hdb, hc]
        rw [hres]
        exact ⟨fun e he => Except.noConfusion he, fun _ => ⟨⟨p, true⟩, rfl, rfl, rfl⟩⟩
      · have hres : get_repository_database can_connect g (some p) =
            (.error .ioFailure, g) := by
          simp [get_repository_database, switch_repository, db_connect, hdb, hc]
        rw [hres]
        exact ⟨fun e he => rfl, fun hne => absurd rfl hne⟩
  | some db =>
      by_cases hcur : g.current_repo_path = some p
      · cases hconn : db.connected with
        | true =>
            have hres : get_repository_database can_connect g (some p) =
                (.ok (some db), g) := by
              simp [get_repository_database, hdb, hcur, hconn]
            rw [hres]
            exact ⟨fun e he => Except.noConfusion he, fun hne => absurd rfl hne⟩
        | false =>
            by_cases hc : can_connect db.repo_path
            · have hres : get_repository_database can_connect g (some p) =
                  (.ok (some { db with connected := true }),
                   { g with repo_db := some { db with connected := true } }) := by
                simp [get_repository_database, db_connect, hdb, hcur, hconn, hc]
              rw [hres]
              exact ⟨fun e he => Except.noConfusion he,
                fun _ => ⟨{ db with connected := true }, rfl, rfl, rfl⟩⟩
            · have hres : get_repository_database can_connect g (some p) =
                  (.error .ioFailure, g) := by
                simp [get_repository_database, db_connect, hdb, hcur, hconn, hc]
              rw [hres]
              exact ⟨fun e he => rfl, fun hne => absurd rfl hne⟩
      · by_cases hc : can_connect p
        · have hres : get_repository_database can_connect g (some p) =
              (.ok (some ⟨p, true⟩), ⟨some ⟨p, true⟩, some p⟩) := by
            simp [get_repository_database, switch_repository, db_connect, hdb, hcur, hc]
          rw [hres]
          exact ⟨fun e he => Except.noConfusion he, fun _ => ⟨⟨p, true⟩, rfl, rfl, rfl⟩⟩
        · have hres : get_repository_database can_connect g (some p) =
              (.error .ioFailure, g) := by
            simp [get_repository_database, switch_repository, db_connect, hdb, hcur, hc]
          rw [hres]
          exact ⟨fun e he => rfl, fun hne => absurd rfl hne⟩

/-- Witness for C8: with the target drive absent the call errors and the
globals still hold the old connected handle and path; with the drive present
the globals are replaced by a fresh connected handle. -/
theorem claim_C8_switch_witness :
    ((get_repository_database (fun _ => false)
        ⟨some ⟨"/old", true⟩, some "/old"⟩ (some "/new")).1 = .error .ioFailure) ∧
    ((get_repository_database (fun _ => false)
        ⟨some ⟨"/old", true⟩, some "/old"⟩ (some "/new")).2 =
      ⟨some ⟨"/old", true⟩, some "/old"⟩) ∧
    ((get_repository_database (fun _ => true)
        ⟨some ⟨"/old", true⟩, some "/old"⟩ (some "/new")).2 ≠
      ⟨some ⟨"/old", true⟩, some "/old"⟩) ∧
    (∃ db, (get_repository_database (fun _ => true)
          ⟨some ⟨"/old", true⟩, some "/old"⟩ (some "/new")).1 = .ok (some db) ∧
        db.connected = true ∧
        (get_repository_database (fun _ => true)
          ⟨some ⟨"/old", true⟩, some "/old"⟩ (some "/new")).2.repo_db = some db) := by
  refine ⟨rfl, ?_, by decide, ?_⟩
  · exact (claim_C8_switch (fun _ => false) ⟨some ⟨"/old", true⟩, some "/old"⟩ "/new").1
      .ioFailure rfl
  · exact (claim_C8_switch (fun _ => true) ⟨some ⟨"/old", true⟩, some "/old"⟩ "/new").2
      (by decide)

/-- C9: for nested `transaction` contexts on the same repository database
(the body preserves the depth and never commits on its own, as any body built
from queries and further nested `transaction` calls does), the depth counter
returns to its pre-entry value after every exit; an outermost exit commits the
body's pending writes on success and rolls the connection back to the old
committed state on exception; an inner exit neither commits (the durable state
is untouched) nor rolls back (the body's pending writes survive). -/
theorem claim_C9_transaction {α E : Type} (body : Conn α → Except E Unit × Conn α)
    (conn : Conn α)
    (hdepth : ∀ c, (body c).2.transaction_depth = c.transaction_depth)
    (hcommitted : ∀ c, (body c).2.committed = c.committed) :
    (transaction body conn).2.transaction_depth = conn.transaction_depth ∧
    (conn.transaction_depth = 0 →
       (∀ c2, body { conn with transaction_depth := conn.transaction_depth + 1 } =
            (.ok (), c2) →
          (transaction body conn).1 = .ok () ∧
          (transaction body conn).2.committed = c2.pending ∧
          (transaction body conn).2.pending = c2.pending) ∧
       (∀ e c2, body { conn with transaction_depth := conn.transaction_depth + 1 } =
            (.error e, c2) →
          (transaction body conn).1 = .error e ∧
          (transaction body conn).2.committed = conn.committed ∧
          (transaction body conn).2.pending = conn.committed)) ∧
    (0 < conn.transaction_depth →
       (transaction body conn).2.committed = conn.committed ∧
       (transaction body conn).2.pending =
         (body { conn with transaction_depth := conn.transaction_depth + 1 }).2.pending) := by
  have hd1 := hdepth { conn with transaction_depth := conn.transaction_depth + 1 }
  have hc1 := hcommitted { conn with transaction_depth := conn.transaction_depth + 1 }
  cases hb : body { conn with transaction_depth := conn.transaction_depth + 1 } with
  | mk res c2 =>
    rw [hb] at hd1 hc1
    simp only at hd1 hc1
    by_cases hzero : conn.transaction_depth = 0
    · have hd2 : c2.transaction_depth = 1 := by omega
      cases res with
      | ok u =>
          have hres : transaction body conn = (.ok (), ⟨c2.pending, c2.pending, 0⟩) := by
            unfold transaction
            dsimp only
            rw [hb]
            dsimp only
            rw [if_pos hd2]
            simp [db_commit, hd2]
          refine ⟨?_, ?_, ?_⟩
          · rw [hres]
            simp [hzero]
          · intro _
            constructor
            · intro c2' hb'
              have h2 : c2 = c2' := congrArg Prod.snd hb'
              subst h2
              exact ⟨by rw [hres], by rw [hres], by rw [hres]⟩
            · intro e c2' hb'
              exact absurd (congrArg Prod.fst hb') (by simp)
          · intro hpos
            omega
      | error e =>
          have hres : transaction body conn =
              (.error e, ⟨c2.committed, c2.committed, 0⟩) := by
            unfold transaction
            dsimp only
            rw [hb]
            dsimp only
            rw [if_pos hd2]
            simp [db_rollback, hd2]
          refine ⟨?_, ?_, ?_⟩
          · rw [hres]
            simp [hzero]
          · intro _
            constructor
            · intro c2' hb'
              exact absurd (congrArg Prod.fst hb') (by simp)
            · intro e' c2' hb'
              have h1 : Except.error (ε := E) (α := Unit) e = Except.error e' :=
                congrArg Prod.fst hb'
              have he : e = e' := by
                injection h1
              subst he
              exact ⟨by rw [hres], by rw [hres]; exact hc1, by rw [hres]; exact hc1⟩
          · intro hpos
            omega
    · have hd2 : ¬(c2.transaction_depth = 1) := by omega
      cases res with
      | ok u =>
          have hres : transaction body conn =
              (.ok (), ⟨c2.committed, c2.pending, c2.transaction_depth - 1⟩) := by
            unfold transaction
            dsimp only
            rw [hb]
            dsimp only
            rw [if_neg hd2]
          refine ⟨?_, fun h0 => absurd h0 hzero, ?_⟩
          · rw [hres]
            simp
            omega
          · intro hpos
            rw [hres]
            exact ⟨hc1, rfl⟩
      | error e =>
          have hres : transaction body conn =
              (.error e, ⟨c2.committed, c2.pending, c2.transaction_depth - 1⟩) := by
            unfold transaction
            dsimp only
            rw [hb]
            dsimp only
            rw [if_neg hd2]
          refine ⟨?_, fun h0 => absurd h0 hzero, ?_⟩
          · rw [hres]
            simp
            omega
          · intro hpos
            rw [hres]
            exact ⟨hc1, rfl⟩

/-- Witness for C9 with the body "set pending to 42": an outermost run commits
42; a depth-3 nested run leaves the durable state and the depth intact. -/
theorem claim_C9_transaction_witness :
    (∀ c : Conn Nat,
       ((fun d : Conn Nat => ((.ok () : Except Unit Unit), { d with pending := 42 })) c).2.transaction_depth =
         c.transaction_depth) ∧
    (∀ c : Conn Nat,
       ((fun d : Conn Nat => ((.ok () : Except Unit Unit), { d with pending := 42 })) c).2.committed =
         c.committed) ∧
    (transaction (fun c : Conn Nat => ((.ok () : Except Unit Unit), { c with pending := 42 }))
        ⟨0, 0, 0⟩).2.committed = 42 ∧
    (transaction (fun c : Conn Nat => ((.ok () : Except Unit Unit), { c with pending := 42 }))
        ⟨0, 0, 0⟩).2.transaction_depth = 0 ∧
    (transaction (fun c : Conn Nat => ((.ok () : Except Unit Unit), { c with pending := 42 }))
        ⟨5, 1, 3⟩).2.committed = 5 ∧
    (transaction (fun c : Conn Nat => ((.ok () : Except Unit Unit), { c with pending := 42 }))
        ⟨5, 1, 3⟩).2.transaction_depth = 3 := by
  refine ⟨fun c => rfl, fun c => rfl, ?_, ?_, ?_, ?_⟩
  · exact (((claim_C9_transaction _ ⟨0, 0, 0⟩ (fun c => rfl) (fun c => rfl)).2.1 rfl).1
      ⟨0, 42, 1⟩ rfl).2.1
  · exact (claim_C9_transaction _ ⟨0, 0, 0⟩ (fun c => rfl) (fun c => rfl)).1
  · exact ((claim_C9_transaction _ ⟨5, 1, 3⟩ (fun c => rfl) (fun c => rfl)).2.2 (by decide)).1
  · exact (claim_C9_transaction _ ⟨5, 1, 3⟩ (fun c => rfl) (fun c => rfl)).1

/-- A freshly set key is found first. -/
lemma config_get_set (cfg : ConfigData) (key : String) (v : List Char) :
    config_get (config_set cfg key v) key = some v := by
  simp [config_get, config_set, List.find?_cons]

/-- Python `bytes.hex()` of a non-empty byte string is a non-empty string. -/
lemma bytesHex_ne_nil (b : Nat) (bs : List Nat) : bytesHex (b :: bs) ≠ [] := by
  simp [bytesHex, byteToHex]

/-- Each hex digit decodes back to its value. -/
lemma hexDigit_roundtrip : ∀ n < 16, hexDigitVal (hexDigitChar n) = some n := by decide

/-- Python `bytes.fromhex` inverts `bytes.hex()` on genuine byte strings. -/
lemma bytesFromHex_bytesHex (bs : List Nat) (h : ∀ x ∈ bs, x < 256) :
    bytesFromHex (bytesHex bs) = some bs := by
  induction bs with
  | nil => rfl
  | cons b rest ih =>
      have hb : b < 256 := h b (List.mem_cons_self b rest)
      have h1 : hexDigitVal (hexDigitChar (b / 16)) = some (b / 16) :=
        hexDigit_roundtrip _ (by omega)
      have h2 : hexDigitVal (hexDigitChar (b % 16)) = some (b % 16) :=
        hexDigit_roundtrip _ (by omega)
      have hr : bytesFromHex (bytesHex rest) = some rest :=
        ih (fun x hx => h x (List.mem_cons_of_mem b hx))
      simp only [bytesHex, List.flatMap_cons, byteToHex, List.cons_append, List.nil_append]
      rw [bytesFromHex]
      rw [h1, h2]
      simp only [bytesHex] at hr
      simp [hr, Option.bind, Nat.div_add_mod]

/-- C10: for every non-empty genuine byte string, setting any of the three
master-key config fields and reading the same property returns exactly the
bytes back (hex encode then decode round-trips); a never-set field reads as
`None`, and a field set to the empty byte string also reads as `None`. -/
theorem claim_C10_config_roundtrip (cfg : ConfigData) (b : List Nat)
    (hb : b ≠ []) (hlt : ∀ x ∈ b, x < 256) :
    encrypted_master_key_get (encrypted_master_key_set cfg b) = some b ∧
    master_key_salt_get (master_key_salt_set cfg b) = some b ∧
    master_key_nonce_get (master_key_nonce_set cfg b) = some b ∧
    (∀ cfg0 : ConfigData, config_get cfg0 "encrypted_master_key" = none →
       encrypted_master_key_get cfg0 = none) ∧
    (∀ cfg0 : ConfigData, config_get cfg0 "master_key_salt" = none →
       master_key_salt_get cfg0 = none) ∧
    (∀ cfg0 : ConfigData, config_get cfg0 "master_key_nonce" = none →
       master_key_nonce_get cfg0 = none) ∧
    encrypted_master_key_get (encrypted_master_key_set cfg []) = none ∧
    master_key_salt_get (master_key_salt_set cfg []) = none ∧
    master_key_nonce_get (master_key_nonce_set cfg []) = none := by
  have main : ∀ key, master_key_field_get (master_key_field_set cfg key b) key = some b := by
    intro key
    unfold master_key_field_get master_key_field_set
    rw [config_get_set]
    dsimp only
    cases b with
    | nil => exact absurd rfl hb
    | cons x xs =>
        rw [if_neg (bytesHex_ne_nil x xs)]
        exact bytesFromHex_bytesHex _ hlt
  have habsent : ∀ (key : String) (cfg0 : ConfigData), config_get cfg0 key = none →
      master_key_field_get cfg0 key = none := by
    intro key cfg0 h0
    unfold master_key_field_get
    rw [h0]
  have hempty : ∀ key, master_key_field_get (master_key_field_set cfg key []) key = none := by
    intro key
    unfold master_key_field_get master_key_field_set
    rw [config_get_set]
    simp [bytesHex]
  exact ⟨main _, main _, main _, fun c h => habsent _ c h, fun c h => habsent _ c h,
    fun c h => habsent _ c h, hempty _, hempty _, hempty _⟩

/-- Witness for C10 with the bytes `[0, 171]` and an empty starting config. -/
theorem claim_C10_config_roundtrip_witness :
    (([0, 171] : List Nat) ≠ []) ∧
    (∀ x ∈ ([0, 171] : List Nat), x < 256) ∧
    (encrypted_master_key_get (encrypted_master_key_set [] [0, 171]) = some [0, 171] ∧
     master_key_salt_get (master_key_salt_set [] [0, 171]) = some [0, 171] ∧
     master_key_nonce_get (master_key_nonce_set [] [0, 171]) = some [0, 171] ∧
     (∀ cfg0 : ConfigData, config_get cfg0 "encrypted_master_key" = none →
        encrypted_master_key_get cfg0 = none) ∧
     (∀ cfg0 : ConfigData, config_get cfg0 "master_key_salt" = none →
        master_key_salt_get cfg0 = none) ∧
     (∀ cfg0 : ConfigData, config_get cfg0 "master_key_nonce" = none →
        master_key_nonce_get cfg0 = none) ∧
     encrypted_master_key_get (encrypted_master_key_set [] []) = none ∧
     master_key_salt_get (master_key_salt_set [] []) = none ∧
     master_key_nonce_get (master_key_nonce_set [] []) = none) :=
  ⟨by decide, by decide,
   claim_C10_config_roundtrip [] [0, 171] (by decide) (by decide)⟩

end SecureVault
